import Mathlib

/-!
Verification of the AI-response orchestration core of `task-master-ai-gemini`
(`scripts/modules/ai-services.js`).

The JavaScript source is shallowly embedded: JSON values are modelled by the
inductive `JVal` (numbers as exact rationals; IEEE-double rounding of huge or
high-precision literals is not modelled, no claim depends on it), stateful
control flow becomes explicit state passing, fallible operations return
`Option`/`Except`, the wall clock is an explicit ISO-timestamp argument, and
the generation/research backends are explicit parameters giving the outcome
of each network call.
-/

/-- JSON-ish runtime values.  `nan` is the result of a failed `parseInt`. -/
inductive JVal where
  | null
  | bool (b : Bool)
  | num (q : Rat)
  | nan
  | str (s : String)
  | arr (elems : List JVal)
  | obj (fields : List (String × JVal))
deriving Repr

mutual

/-- Structural boolean equality on `JVal` (used to certify concrete
disequalities; Lean cannot derive `DecidableEq` for this nested inductive). -/
def JVal.beq : JVal → JVal → Bool
  | .null, .null => true
  | .bool a, .bool b => decide (a = b)
  | .num a, .num b => decide (a = b)
  | .nan, .nan => true
  | .str a, .str b => decide (a = b)
  | .arr as, .arr bs => JVal.beqL as bs
  | .obj as, .obj bs => JVal.beqF as bs
  | _, _ => false

def JVal.beqL : List JVal → List JVal → Bool
  | [], [] => true
  | a :: as, b :: bs => JVal.beq a b && JVal.beqL as bs
  | _, _ => false

def JVal.beqF : List (String × JVal) → List (String × JVal) → Bool
  | [], [] => true
  | (k, a) :: as, (l, b) :: bs => decide (k = l) && JVal.beq a b && JVal.beqF as bs
  | _, _ => false

end

/-- A JavaScript object is modelled as an ordered association list of fields.
Keys are unique by construction when produced by `jparseChars` (duplicate keys
in a JSON text keep the first position and the last value, as `JSON.parse`
does). -/
abbrev Fields := List (String × JVal)

/-- First-match field lookup, mirroring JavaScript property access on a plain
object (keys are unique after `JSON.parse`). -/
def getF : List (String × JVal) → String → Option JVal
  | [], _ => none
  | (k', v') :: rest, k => if k' = k then some v' else getF rest k

/-- Property assignment on a plain object: replace the value at an existing
key in place, otherwise append the new key. -/
def setF : List (String × JVal) → String → JVal → List (String × JVal)
  | [], k, v => [(k, v)]
  | (k', v') :: rest, k, v =>
    if k' = k then (k', v) :: rest else (k', v') :: setF rest k v

/-- JavaScript truthiness of a value. -/
def truthyV : JVal → Bool
  | .null => false
  | .bool b => b
  | .num q => q ≠ 0
  | .nan => false
  | .str s => s ≠ ""
  | .arr _ => true
  | .obj _ => true

/-- Truthiness of a possibly-absent property (`undefined` is falsy). -/
def truthyO : Option JVal → Bool
  | none => false
  | some v => truthyV v

/-- Property read through a `JVal`: only objects have fields (reads on
primitives yield `undefined`; the embedding does not distinguish the
`TypeError` a read on `null` raises, both flow into the same error branch at
every use site). -/
def jGet : JVal → String → Option JVal
  | .obj fs, k => getF fs k
  | _, _ => none

/-- Property write through a `JVal`; only reachable on objects at its use
sites. -/
def jSet : JVal → String → JVal → JVal
  | .obj fs, k, v => .obj (setF fs k v)
  | v, _, _ => v

/-! ### String and character utilities mirroring the JavaScript built-ins -/

/-- JSON whitespace (also the leading whitespace `parseInt` skips; the full
JavaScript whitespace class is wider, which no claim depends on). -/
def isWS (c : Char) : Bool := c = ' ' || c = '\t' || c = '\n' || c = '\r'

def skipWS (cs : List Char) : List Char := cs.dropWhile isWS

/-- `String.prototype.indexOf` for a single-character needle, as an `Option`
instead of the `-1` sentinel. -/
def jsIndexOfChar (c : Char) : List Char → Option Nat
  | [] => none
  | x :: xs => if x = c then some 0 else (jsIndexOfChar c xs).map (· + 1)

/-- `String.prototype.lastIndexOf` for a single-character needle. -/
def jsLastIndexOfChar (c : Char) (cs : List Char) : Option Nat :=
  (jsIndexOfChar c cs.reverse).map (fun i => cs.length - 1 - i)

/-- `String.prototype.substring`: clamps its arguments to the string and
swaps them when the start exceeds the end. -/
def jsSubstring (cs : List Char) (a b : Nat) : List Char :=
  (cs.take (max a b)).drop (min a b)

/-- Does `needle` occur at the start of `hay`? -/
def seqStartsWith : List Char → List Char → Bool
  | [], _ => true
  | _ :: _, [] => false
  | a :: as, b :: bs => decide (a = b) && seqStartsWith as bs

/-- `String.prototype.includes`, on character lists. -/
def seqContains (needle : List Char) : List Char → Bool
  | [] => needle.isEmpty
  | c :: rest => seqStartsWith needle (c :: rest) || seqContains needle rest

/-- `hay.toLowerCase().includes(needle)` for an already-lowercase needle. -/
def lowerContains (hay needle : String) : Bool :=
  seqContains needle.data (hay.data.map Char.toLower)

def digitsToNat (ds : List Char) : Nat :=
  ds.foldl (fun a c => a * 10 + (c.toNat - '0'.toNat)) 0

/-! ### A `JSON.parse` model

Recursive-descent over the character list, structural in an explicit fuel
argument so that every run kernel-reduces.  The grammar is the JSON grammar
of `JSON.parse`: strict numbers (no leading zeros, mandatory digits around
`.` and after an exponent), the eight string escapes plus `\uXXXX`
(surrogate pairs collapse to the replacement of `Char.ofNat`, which no claim
touches), and rejection of trailing non-whitespace. -/

def hexVal (c : Char) : Option Nat :=
  if '0' ≤ c ∧ c ≤ '9' then some (c.toNat - '0'.toNat)
  else if 'a' ≤ c ∧ c ≤ 'f' then some (10 + c.toNat - 'a'.toNat)
  else if 'A' ≤ c ∧ c ≤ 'F' then some (10 + c.toNat - 'A'.toNat)
  else none

def parseHex4 : List Char → Option (Char × List Char)
  | a :: b :: c :: d :: r =>
    match hexVal a, hexVal b, hexVal c, hexVal d with
    | some h1, some h2, some h3, some h4 =>
      some (Char.ofNat (((h1 * 16 + h2) * 16 + h3) * 16 + h4), r)
    | _, _, _, _ => none
  | _ => none

/-- Body of a JSON string literal, after the opening quote. -/
def parseStrLoop : Nat → List Char → Option (List Char × List Char)
  | 0, _ => none
  | _ + 1, [] => none
  | fuel + 1, c :: rest =>
    if c = '"' then some ([], rest)
    else if c = '\\' then
      match rest with
      | [] => none
      | e :: r =>
        let esc : Option (Char × List Char) :=
          if e = '"' then some ('"', r)
          else if e = '\\' then some ('\\', r)
          else if e = '/' then some ('/', r)
          else if e = 'b' then some ('\x08', r)
          else if e = 'f' then some ('\x0C', r)
          else if e = 'n' then some ('\n', r)
          else if e = 'r' then some ('\r', r)
          else if e = 't' then some ('\t', r)
          else if e = 'u' then parseHex4 r
          else none
        match esc with
        | none => none
        | some (ch, r') => (parseStrLoop fuel r').map (fun p => (ch :: p.1, p.2))
    else if c.toNat < 0x20 then none
    else (parseStrLoop fuel rest).map (fun p => (c :: p.1, p.2))

def parseStringBody (cs : List Char) : Option (String × List Char) :=
  (parseStrLoop (cs.length + 1) cs).map (fun p => (String.mk p.1, p.2))

/-- A JSON number literal, as an exact rational. -/
def parseNumber (cs : List Char) : Option (JVal × List Char) :=
  let sgn : Int × List Char := match cs with | '-' :: r => (-1, r) | _ => (1, cs)
  let ds := sgn.2.takeWhile Char.isDigit
  let r1 := sgn.2.dropWhile Char.isDigit
  if ds = [] then none
  else if ds.length > 1 ∧ ds.head? = some '0' then none
  else
    let frac : Option (Nat × Nat × List Char) :=
      match r1 with
      | '.' :: r =>
        let fs := r.takeWhile Char.isDigit
        if fs = [] then none else some (digitsToNat fs, fs.length, r.dropWhile Char.isDigit)
      | _ => some (0, 0, r1)
    match frac with
    | none => none
    | some (fv, fl, r2) =>
      let expo : Option (Int × List Char) :=
        match r2 with
        | e :: r =>
          if e = 'e' ∨ e = 'E' then
            let es : Int × List Char :=
              match r with
              | '+' :: rr => (1, rr)
              | '-' :: rr => (-1, rr)
              | _ => (1, r)
            let eds := es.2.takeWhile Char.isDigit
            if eds = [] then none
            else some (es.1 * (digitsToNat eds : Int), es.2.dropWhile Char.isDigit)
          else some (0, r2)
        | [] => some (0, [])
      match expo with
      | none => none
      | some (ev, r3) =>
        let pnum : Int :=
          sgn.1 * ((digitsToNat ds * 10 ^ fl + fv : Nat) : Int)
            * ((10 ^ (if 0 ≤ ev then ev.toNat else 0) : Nat) : Int)
        let pden : Nat := 10 ^ fl * 10 ^ (if 0 ≤ ev then 0 else (-ev).toNat)
        some (.num (mkRat pnum pden), r3)

/-- The task of one step of the recursive-descent run: a value, or the items
of an array or object whose opening bracket (and any items in `acc`) have
been consumed. -/
inductive PTask where
  | val
  | arrRest (acc : List JVal)
  | objRest (acc : Fields)

/-- One fueled recursive-descent run. -/
def pstep : Nat → PTask → List Char → Option (JVal × List Char)
  | 0, _, _ => none
  | fuel + 1, .val, cs =>
    let cs := skipWS cs
    match cs with
    | 'n' :: 'u' :: 'l' :: 'l' :: rest => some (.null, rest)
    | 't' :: 'r' :: 'u' :: 'e' :: rest => some (.bool true, rest)
    | 'f' :: 'a' :: 'l' :: 's' :: 'e' :: rest => some (.bool false, rest)
    | '"' :: rest => (parseStringBody rest).map (fun p => (.str p.1, p.2))
    | '[' :: rest =>
      let r := skipWS rest
      match r with
      | ']' :: r' => some (.arr [], r')
      | _ => pstep fuel (.arrRest []) r
    | '{' :: rest =>
      let r := skipWS rest
      match r with
      | '}' :: r' => some (.obj [], r')
      | _ => pstep fuel (.objRest []) r
    | _ => parseNumber cs
  | fuel + 1, .arrRest acc, cs =>
    match pstep fuel .val cs with
    | none => none
    | some (v, rest) =>
      match skipWS rest with
      | ',' :: r' => pstep fuel (.arrRest (acc ++ [v])) r'
      | ']' :: r' => some (.arr (acc ++ [v]), r')
      | _ => none
  | fuel + 1, .objRest acc, cs =>
    match skipWS cs with
    | '"' :: rest =>
      match parseStringBody rest with
      | none => none
      | some (k, r1) =>
        match skipWS r1 with
        | ':' :: r2 =>
          match pstep fuel .val r2 with
          | none => none
          | some (v, r3) =>
            let acc' := setF acc k v
            match skipWS r3 with
            | ',' :: r5 => pstep fuel (.objRest acc') r5
            | '}' :: r5 => some (.obj acc', r5)
            | _ => none
        | _ => none
    | _ => none

/-- `JSON.parse` on a character list: `none` models a thrown `SyntaxError`. -/
def jparseChars (cs : List Char) : Option JVal :=
  match pstep (2 * cs.length + 8) .val cs with
  | some (v, rest) => if skipWS rest = [] then some v else none
  | none => none

/-! ### Log trace -/

/-- One `log(level, message)` call.  On the fallback path of
`parseSubtasksFromText` the messages logged by the partially-run
normalization before the thrown `TypeError` are not replayed (no claim
concerns them). -/
inductive LogEntry where
  | info (msg : String)
  | warn (msg : String)
  | error (msg : String)
deriving DecidableEq, Repr

/-! ### `parseSubtasksFromText` (array mode) -/

/-- `parseInt(dep, 10)`: skip leading whitespace and an optional sign, read
decimal digits, `NaN` when there are none. -/
def jsParseInt (s : String) : JVal :=
  let cs := s.data.dropWhile isWS
  let sgn : Int × List Char :=
    match cs with
    | '-' :: r => (-1, r)
    | '+' :: r => (1, r)
    | _ => (1, cs)
  let ds := sgn.2.takeWhile Char.isDigit
  if ds = [] then .nan else .num ((sgn.1 * (digitsToNat ds : Int) : Int) : Rat)

/-- Dependency coercion: string entries go through `parseInt`, everything
else is kept as supplied. -/
def coerceDep : JVal → JVal
  | .str s => jsParseInt s
  | v => v

/-- How a value renders inside a template literal.  Only integer ids (always
the case at the one use site, the id-correction log) are rendered exactly;
non-integer numbers and arrays are approximated, which only log text can
observe. -/
def jsDisplay : Option JVal → String
  | none => "undefined"
  | some .null => "null"
  | some (.bool b) => cond b "true" "false"
  | some (.num q) => if q.den = 1 then toString q.num else toString q.num ++ "/" ++ toString q.den
  | some .nan => "NaN"
  | some (.str s) => s
  | some (.arr _) => "[array]"
  | some (.obj _) => "[object Object]"

/-- The strict-equality test `subtask.id !== startId + index`, whose right
side is always a number: it holds exactly when the `id` field is that
number. -/
def idMatches (target : Rat) (fs : Fields) : Bool :=
  match getF fs "id" with
  | some (.num q) => decide (q = target)
  | _ => false

/-- The value assigned to `dependencies` by the branch at lines 574-581: a
truthy array is mapped through `coerceDep` (arrays are always truthy, so the
`&&` is equivalent to the array test alone), anything else — missing, or not
an array — is replaced by the empty array. -/
def depsOf (fs : Fields) : List JVal :=
  match getF fs "dependencies" with
  | some (.arr ds) => ds.map coerceDep
  | _ => []

/-- Normalization of one parsed subtask object (the body of the `map` at
lines 567-590 of `ai-services.js`): force `id` to `startId + index`, coerce
string dependencies and default missing or non-array dependencies to `[]`
(both branches assign, so the step is one `setF` of `depsOf`), force
`status`, attach `parentTaskId`. -/
def normalizeSubtask (startId parentTaskId : Int) (idx : Nat) (fs : Fields) :
    Fields × List LogEntry :=
  let t : Rat := ((startId + (idx : Int) : Int) : Rat)
  let target : JVal := .num t
  let idLog : List LogEntry :=
    if idMatches t fs then []
    else [.warn ("Correcting subtask ID from " ++ jsDisplay (getF fs "id") ++ " to "
          ++ jsDisplay (some target))]
  let fs1 := if idMatches t fs then fs else setF fs "id" target
  let fs2 := setF fs1 "dependencies" (.arr (depsOf fs1))
  let fs3 := setF fs2 "status" (.str "pending")
  let fs4 := setF fs3 "parentTaskId" (.num ((parentTaskId : Int) : Rat))
  (fs4, idLog)

/-- The `map` over the parsed array.  A non-object element makes property
assignment throw a `TypeError` in the strict-mode source, failing the whole
map (`none`); an element that is itself a JSON array would, in JavaScript,
accept the assigned properties while remaining an array, which this
embedding also sends to `none` — every theorem below stays on arrays of
objects, where both agree. -/
def normalizeSubtasksList (startId parentTaskId : Int) :
    Nat → List JVal → Option (List Fields × List LogEntry)
  | _, [] => some ([], [])
  | i, v :: rest =>
    match v with
    | .obj fs =>
      let hd := normalizeSubtask startId parentTaskId i fs
      match normalizeSubtasksList startId parentTaskId (i + 1) rest with
      | some (tl, lgs) => some (hd.1 :: tl, hd.2 ++ lgs)
      | none => none
    | _ => none

/-- The synthetic fallback records of lines 599-611. -/
def fallbackSubtasks (startId : Int) (expectedCount : Nat) (parentTaskId : Int) :
    List Fields :=
  (List.range expectedCount).map fun (i : Nat) =>
    [("id", .num ((startId + (i : Int) : Int) : Rat)),
     ("title", .str ("Subtask " ++ toString (startId + (i : Int)))),
     ("description", .str "Auto-generated fallback subtask"),
     ("dependencies", .arr []),
     ("details", .str ("This is a fallback subtask created because parsing failed. "
        ++ "Please update with real details.")),
     ("status", .str "pending"),
     ("parentTaskId", .num ((parentTaskId : Int) : Rat))]

/-- Locating the JSON array slice (lines 545-553): first `[`, last `]`,
reject a closing bracket before the opening one. -/
def arrRegion (text : String) : Option (List Char) :=
  match jsIndexOfChar '[' text.data, jsLastIndexOfChar ']' text.data with
  | some a, some b => if b < a then none else some (jsSubstring text.data a (b + 1))
  | _, _ => none

/-- The logs of the catch-branch of `parseSubtasksFromText`. -/
def fallbackLogs (msg : String) : List LogEntry :=
  [.error ("Error parsing subtasks: " ++ msg), .warn "Creating fallback subtasks"]

/-- `parseSubtasksFromText(text, startId, expectedCount, parentTaskId)`:
locate and parse the array, warn on a count mismatch, normalize each element;
any thrown error is caught and replaced by the fallback records. -/
def parseSubtasksFromText (text : String) (startId : Int) (expectedCount : Nat)
    (parentTaskId : Int) : List Fields × List LogEntry :=
  match arrRegion text with
  | none =>
    (fallbackSubtasks startId expectedCount parentTaskId,
     fallbackLogs "Could not locate valid JSON array in the response")
  | some sl =>
    match jparseChars sl with
    | none =>
      (fallbackSubtasks startId expectedCount parentTaskId,
       fallbackLogs "Unexpected token in JSON")
    | some v =>
      match v with
      | .arr xs =>
        let countLogs : List LogEntry :=
          if xs.length ≠ expectedCount then
            [.warn ("Expected " ++ toString expectedCount ++ " subtasks, but parsed "
              ++ toString xs.length)]
          else []
        match normalizeSubtasksList startId parentTaskId 0 xs with
        | some (l, lgs) => (l, countLogs ++ lgs)
        | none =>
          (fallbackSubtasks startId expectedCount parentTaskId,
           countLogs ++ fallbackLogs "TypeError in subtask normalization")
      | _ =>
        (fallbackSubtasks startId expectedCount parentTaskId,
         fallbackLogs "Parsed content is not an array")

/-! ### Gemini error objects and `handleGeminiError` -/

/-- A thrown error as the source observes it: the optional structured
`response.error` (code and message) and the `message` property. -/
structure JsErr where
  resp : Option (String × String) := none
  msg : String
deriving DecidableEq, Repr

/-- `handleGeminiError` (lines 47-72): translate a backend error into a
user-facing message.  The `switch` on `response.error.code` returns in every
branch, so the keyword checks on `message` only run when there is no
structured `response.error`. -/
def handleGeminiError (e : JsErr) : String :=
  match e.resp with
  | some (code, rmsg) =>
    if code = "RESOURCE_EXHAUSTED" then
      "You have exceeded your quota. Please check your plan and billing details."
    else if code = "PERMISSION_DENIED" then
      "Invalid API key or insufficient permissions. Please check your API key."
    else if code = "INVALID_ARGUMENT" then
      "There was an issue with the request format. If this persists, please report it as a bug."
    else "Gemini API error: " ++ rmsg
  | none =>
    if lowerContains e.msg "timeout" then
      "The request to Gemini timed out. Please try again."
    else if lowerContains e.msg "network" then
      "There was a network error connecting to Gemini. Please check your internet connection and try again."
    else "Error communicating with Gemini: " ++ e.msg

/-- The retry condition of `callGemini` (lines 118-123), evaluated on the
error it caught. -/
def isRetryable (e : JsErr) : Bool :=
  (match e.resp with
   | some (code, _) => decide (code = "RESOURCE_EXHAUSTED")
   | none => false)
  || lowerContains e.msg "timeout"
  || lowerContains e.msg "network"

/-! ### `processGeminiResponse` extraction (object mode) -/

/-- `new Date().toISOString().split("T")[0]`: the calendar-date part of an
ISO timestamp. -/
def datePart (nowIso : String) : String :=
  String.mk (nowIso.data.takeWhile (fun c => c ≠ 'T'))

/-- The metadata object synthesized at lines 250-255 when the response
carries none. -/
def synthMetadata (numParsedTasks : Nat) (prdPath nowIso : String) : JVal :=
  .obj [("projectName", .str "PRD Implementation"),
        ("totalTasks", .num (numParsedTasks : Rat)),
        ("sourceFile", .str prdPath),
        ("generatedAt", .str (datePart nowIso))]

/-- Locating the JSON object slice (lines 228-235): first `{`, last `}`;
unlike array mode there is no order check — `substring` swaps a reversed
pair of indices. -/
def objRegion (text : String) : Option (List Char) :=
  match jsIndexOfChar '{' text.data, jsLastIndexOfChar '}' text.data with
  | some a, some b => some (jsSubstring text.data a (b + 1))
  | _, _ => none

/-- The `try`-block of `processGeminiResponse` (lines 226-258): locate and
parse the object, require a `tasks` array, warn on a count mismatch,
synthesize `metadata` when the parsed object has no truthy `metadata`.
Errors are returned as `Except.error` for the retry logic around it. -/
def extractTasksData (text : String) (numTasks : Nat) (prdPath nowIso : String) :
    Except JsErr (JVal × List LogEntry) :=
  match objRegion text with
  | none => .error ⟨none, "Could not find valid JSON in Gemini\x27s response"⟩
  | some sl =>
    match jparseChars sl with
    | none => .error ⟨none, "Unexpected token in JSON"⟩
    | some parsed =>
      match jGet parsed "tasks" with
      | some (.arr ts) =>
        let logs : List LogEntry :=
          if ts.length ≠ numTasks then
            [.warn ("Expected " ++ toString numTasks ++ " tasks, but received "
              ++ toString ts.length)]
          else []
        if truthyO (jGet parsed "metadata") then .ok (parsed, logs)
        else .ok (jSet parsed "metadata" (synthMetadata ts.length prdPath nowIso), logs)
      | _ => .error ⟨none, "Gemini\x27s response does not contain a valid tasks array"⟩

/-! ### The retry orchestration of `callGemini` / `handleStreamingRequest` /
`processGeminiResponse` -/

/-- Externally observable side effects of one orchestrated run. -/
inductive Ev where
  | genCall
  | researchCall
  | wait (ms : Nat)
  | startInd
  | stopInd
  | startTick
  | clearTick
deriving DecidableEq, Repr

/-- Result of an orchestrated run.  `err` is a propagating exception; its
flag records that the rejection came out of a promise *returned* from
`processGeminiResponse` (line 269), which bypasses the `catch` of
`handleStreamingRequest` because line 198 returns without awaiting.
`spin` is exhaustion of the step fuel: the run performs more chained calls
than any bound, i.e. it does not terminate. -/
inductive POutcome where
  | ok (v : JVal) (logs : List LogEntry)
  | err (e : JsErr) (viaPromise : Bool)
  | spin
deriving Repr

/-- The three mutually recursive functions of the source. -/
inductive OrchCall where
  | callG (k retryCount : Nat)
  | handleS (k : Nat)
  | processR (k : Nat) (text : String) (retryCount : Nat)

def OrchCall.kOf : OrchCall → Nat
  | .callG k _ => k
  | .handleS k => k
  | .processR k _ _ => k

def markViaPromise : POutcome → POutcome
  | .err e _ => .err e true
  | o => o

/-- One fueled run of the mutual recursion among `callGemini` (retry with
linear backoff on a retryable caught error, else throw the translated
message), `handleStreamingRequest` (one generation call with indicator and
tick bookkeeping; any caught error is rethrown as a fresh `Error` with the
translated message), and `processGeminiResponse` (extraction; on failure
retry the same text once, then call `callGemini` again — which restarts
extraction with `retryCount` 0 via line 198).  `gen k` is the outcome of the
`k`-th generation request; each inter-function call consumes one unit of
fuel. -/
def orchRun (gen : Nat → Except JsErr String) (numTasks : Nat)
    (prdPath nowIso : String) : Nat → OrchCall → POutcome × List Ev × Nat
  | 0, c => (.spin, [], c.kOf)
  | fuel + 1, .callG k rc =>
    let h := orchRun gen numTasks prdPath nowIso fuel (.handleS k)
    match h.1 with
    | .err e _ =>
      if rc < 2 then
        if isRetryable e then
          let r := orchRun gen numTasks prdPath nowIso fuel (.callG h.2.2 (rc + 1))
          (r.1, h.2.1 ++ (.wait ((rc + 1) * 5000) :: r.2.1), r.2.2)
        else (.err ⟨none, handleGeminiError e⟩ false, h.2.1, h.2.2)
      else (.err ⟨none, handleGeminiError e⟩ false, h.2.1, h.2.2)
    | _ => h
  | fuel + 1, .handleS k =>
    match gen k with
    | .error e =>
      (.err ⟨none, handleGeminiError e⟩ false, [.startInd, .genCall, .stopInd], k + 1)
    | .ok text =>
      let p := orchRun gen numTasks prdPath nowIso fuel (.processR (k + 1) text 0)
      let base : List Ev := [.startInd, .genCall, .startTick, .clearTick, .stopInd]
      match p.1 with
      | .err e false => (.err ⟨none, handleGeminiError e⟩ false, base ++ p.2.1, p.2.2)
      | _ => (p.1, base ++ p.2.1, p.2.2)
  | fuel + 1, .processR k text rc =>
    match extractTasksData text numTasks prdPath nowIso with
    | .ok (v, logs) => (.ok v logs, [], k)
    | .error e =>
      if rc < 2 then
        if rc == 1 then
          let r := orchRun gen numTasks prdPath nowIso fuel (.callG k (rc + 1))
          (markViaPromise r.1, r.2.1, r.2.2)
        else orchRun gen numTasks prdPath nowIso fuel (.processR k text (rc + 1))
      else (.err e false, [], k)

/-- Entry point `callGemini(prdContent, prdPath, numTasks)` (retry count 0),
starting the generation-call counter at 0. -/
def callGeminiM (gen : Nat → Except JsErr String) (numTasks : Nat)
    (prdPath nowIso : String) (fuel : Nat) : POutcome × List Ev × Nat :=
  orchRun gen numTasks prdPath nowIso fuel (.callG 0 0)

/-! ### `generateSubtasks` and `generateSubtasksWithPerplexity` -/

/-- `generateSubtasks(task, numSubtasks, nextSubtaskId, ...)` given the
outcome of its one streamed generation call: a backend error is rethrown by
both `catch` blocks (lines 376-384); on success the response text goes to
`parseSubtasksFromText`, which never throws.  The trace records indicator
and tick bookkeeping, identical on both paths. -/
def generateSubtasksM (gen : Except JsErr String) (numSubtasks : Nat)
    (nextSubtaskId parentTaskId : Int) :
    Except JsErr (List Fields × List LogEntry) × List Ev :=
  match gen with
  | .error e => (.error e, [.startInd, .startTick, .genCall, .clearTick, .stopInd])
  | .ok text =>
    (.ok (parseSubtasksFromText text nextSubtaskId numSubtasks parentTaskId),
     [.startInd, .startTick, .genCall, .clearTick, .stopInd])

/-- `generateSubtasksWithPerplexity` given its credential state and the
outcomes of the research call and the generation call.  A missing key throws
before any indicator starts; a research failure propagates out of the outer
`catch` (lines 528-531) with the research loading indicator never stopped;
after successful research the generation phase cleans up on both paths. -/
def generateSubtasksWithPerplexityM (hasKey : Bool)
    (research : Except JsErr String) (gen : Except JsErr String)
    (numSubtasks : Nat) (nextSubtaskId parentTaskId : Int) :
    Except JsErr (List Fields × List LogEntry) × List Ev :=
  if ¬hasKey then
    (.error ⟨none, "PERPLEXITY_API_KEY environment variable is missing. Set it to use research-backed features."⟩,
     [])
  else
    match research with
    | .error e => (.error e, [.startInd, .researchCall])
    | .ok _ =>
      match gen with
      | .error e =>
        (.error e, [.startInd, .researchCall, .stopInd,
                    .startInd, .startTick, .genCall, .clearTick, .stopInd])
      | .ok text =>
        (.ok (parseSubtasksFromText text nextSubtaskId numSubtasks parentTaskId),
         [.startInd, .researchCall, .stopInd,
          .startInd, .startTick, .genCall, .clearTick, .stopInd])

/-- Are all started indicators stopped and all started tick timers
cleared? -/
def indBalanced (es : List Ev) : Bool :=
  decide (es.count .startInd = es.count .stopInd)
  && decide (es.count .startTick = es.count .clearTick)

/-! ### Test fixtures used by the closed evaluations below -/

def garbageText : String := "This response contains no valid JSON at all."

/-- A generation backend that always answers with prose containing no JSON. -/
def garbageGen : Nat → Except JsErr String := fun _ => .ok garbageText

/-- A backend failing every call with a structured quota error. -/
def quotaGen : Nat → Except JsErr String :=
  fun _ => .error ⟨some ("RESOURCE_EXHAUSTED", "Quota exceeded for quota metric"),
                   "429 Too Many Requests"⟩

/-- A backend failing every call with a timeout. -/
def timeoutGen : Nat → Except JsErr String :=
  fun _ => .error ⟨none, "Request timeout after 30 seconds"⟩

/-- A backend failing every call with a network error. -/
def networkGen : Nat → Except JsErr String :=
  fun _ => .error ⟨none, "network connection failed"⟩

def iso0 : String := "2024-01-01T00:00:00.000Z"

/-- The raw text of the spec scenario for subtask extraction. -/
def sc2text : String :=
  "Here you go:\n[\x7b\"id\":99,\"title\":\"X\",\"description\":\"Y\"\x7d]\nThanks!"

def sc2sl : List Char := "[\x7b\"id\":99,\"title\":\"X\",\"description\":\"Y\"\x7d]".data

def sc2fields : Fields := [("id", .num 99), ("title", .str "X"), ("description", .str "Y")]

/-- A subtask array whose dependencies are decimal strings. -/
def depsText : String := "[\x7b\"id\":1,\"dependencies\":[\"1\",\"2\"]\x7d]"

def depsFields : Fields := [("id", .num 1), ("dependencies", .arr [.str "1", .str "2"])]

def sc10text : String := "[\x7b\"title\":\"Implement parser logic\",\"custom\":true\x7d]"

def sc10fields : Fields := [("title", .str "Implement parser logic"), ("custom", .bool true)]

/-- An object-mode response whose `metadata` field is carried but `null`. -/
def nullMetaText : String := "\x7b\"tasks\":[],\"metadata\":null\x7d"

/-- An object-mode response with a truthy `metadata` object. -/
def withMetaText : String := "\x7b\"tasks\":[\x7b\x7d],\"metadata\":\x7b\"x\":1\x7d\x7d"

def withMetaParsed : JVal :=
  .obj [("tasks", .arr [.obj []]), ("metadata", .obj [("x", .num 1)])]

/-- An object-mode response with one task and no metadata. -/
def oneTaskText : String := "\x7b\"tasks\":[\x7b\"id\":1\x7d]\x7d"

/-- An object-mode response with no metadata, used to observe the clock. -/
def bareTasksText : String := "\x7b\"tasks\":[]\x7d"

/-! ### Basic lemmas -/

theorem getF_setF_self (fs : Fields) (k : String) (v : JVal) :
    getF (setF fs k v) k = some v := by
  induction fs with
  | nil => simp [getF, setF]
  | cons hd tl ih =>
    obtain ⟨k', v'⟩ := hd
    by_cases h : k' = k <;> simp [getF, setF, h, ih]

theorem getF_setF_ne (fs : Fields) {k k' : String} (v : JVal) (h : k' ≠ k) :
    getF (setF fs k v) k' = getF fs k' := by
  induction fs with
  | nil => simp [getF, setF, Ne.symm h]
  | cons hd tl ih =>
    obtain ⟨k0, v0⟩ := hd
    by_cases h0 : k0 = k
    · subst h0
      have hk : ¬k0 = k' := fun hh => h hh.symm
      simp [setF, getF, hk]
    · simp [setF, getF, h0, ih]

mutual

theorem JVal.beq_refl : (a : JVal) → JVal.beq a a = true
  | .null => rfl
  | .bool _ => by simp [JVal.beq]
  | .num _ => by simp [JVal.beq]
  | .nan => rfl
  | .str _ => by simp [JVal.beq]
  | .arr xs => JVal.beqL_refl xs
  | .obj fs => JVal.beqF_refl fs

theorem JVal.beqL_refl : (as : List JVal) → JVal.beqL as as = true
  | [] => rfl
  | a :: as => by simp [JVal.beqL, JVal.beq_refl a, JVal.beqL_refl as]

theorem JVal.beqF_refl : (as : List (String × JVal)) → JVal.beqF as as = true
  | [] => rfl
  | (k, a) :: as => by simp [JVal.beqF, JVal.beq_refl a, JVal.beqF_refl as]

end

theorem JVal.ne_of_beq_false {a b : JVal} (h : JVal.beq a b = false) : a ≠ b := by
  intro he
  rw [he, JVal.beq_refl] at h
  cases h

/-! ### Lemmas about one-subtask normalization -/

theorem idMatches_iff (t : Rat) (fs : Fields) :
    idMatches t fs = true ↔ getF fs "id" = some (.num t) := by
  unfold idMatches
  rcases h : getF fs "id" with _ | v
  · simp
  · cases v <;> simp

theorem depsOf_congr {fs1 fs2 : Fields}
    (h : getF fs1 "dependencies" = getF fs2 "dependencies") :
    depsOf fs1 = depsOf fs2 := by
  unfold depsOf
  rw [h]

theorem fs1_dependencies (s : Int) (i : Nat) (fs : Fields) :
    getF (if idMatches ((s + (i : Int) : Int) : Rat) fs
          then fs else setF fs "id" (.num ((s + (i : Int) : Int) : Rat)))
        "dependencies" = getF fs "dependencies" := by
  rcases hc : idMatches ((s + (i : Int) : Int) : Rat) fs with _ | _
  · simp only [hc, Bool.false_eq_true, if_false]
    exact getF_setF_ne fs _ (show ("dependencies" : String) ≠ "id" by decide)
  · simp only [hc, if_true]

theorem normalizeSubtask_parent (s p : Int) (i : Nat) (fs : Fields) :
    getF (normalizeSubtask s p i fs).1 "parentTaskId" = some (.num ((p : Int) : Rat)) := by
  simp only [normalizeSubtask]
  rw [getF_setF_self]

theorem normalizeSubtask_status (s p : Int) (i : Nat) (fs : Fields) :
    getF (normalizeSubtask s p i fs).1 "status" = some (.str "pending") := by
  simp only [normalizeSubtask]
  rw [getF_setF_ne _ _ (show ("status" : String) ≠ "parentTaskId" by decide),
    getF_setF_self]

theorem normalizeSubtask_deps (s p : Int) (i : Nat) (fs : Fields) :
    getF (normalizeSubtask s p i fs).1 "dependencies" = some (.arr (depsOf fs)) := by
  simp only [normalizeSubtask]
  rw [getF_setF_ne _ _ (show ("dependencies" : String) ≠ "parentTaskId" by decide),
    getF_setF_ne _ _ (show ("dependencies" : String) ≠ "status" by decide),
    getF_setF_self, depsOf_congr (fs1_dependencies s i fs)]

theorem normalizeSubtask_id (s p : Int) (i : Nat) (fs : Fields) :
    getF (normalizeSubtask s p i fs).1 "id" = some (.num ((s + (i : Int) : Int) : Rat)) := by
  simp only [normalizeSubtask]
  rw [getF_setF_ne _ _ (show ("id" : String) ≠ "parentTaskId" by decide),
    getF_setF_ne _ _ (show ("id" : String) ≠ "status" by decide),
    getF_setF_ne _ _ (show ("id" : String) ≠ "dependencies" by decide)]
  rcases hc : idMatches ((s + (i : Int) : Int) : Rat) fs with _ | _
  · simp only [hc, Bool.false_eq_true, if_false]
    exact getF_setF_self _ _ _
  · simp only [hc, if_true]
    exact (idMatches_iff _ fs).1 hc

theorem normalizeSubtask_frame (s p : Int) (i : Nat) (fs : Fields) {k : String}
    (h1 : k ≠ "id") (h2 : k ≠ "dependencies") (h3 : k ≠ "status")
    (h4 : k ≠ "parentTaskId") :
    getF (normalizeSubtask s p i fs).1 k = getF fs k := by
  simp only [normalizeSubtask]
  rw [getF_setF_ne _ _ h4, getF_setF_ne _ _ h3, getF_setF_ne _ _ h2]
  rcases hc : idMatches ((s + (i : Int) : Int) : Rat) fs with _ | _
  · simp only [hc, Bool.false_eq_true, if_false]
    exact getF_setF_ne fs _ h1
  · simp only [hc, if_true]

/-! ### Lemmas about the whole subtask array -/

theorem normList_spec (s p : Int) (xs : List JVal) :
    ∀ (i0 : Nat), (∀ v ∈ xs, ∃ gs : Fields, v = .obj gs) →
    ∃ l lgs, normalizeSubtasksList s p i0 xs = some (l, lgs) ∧
      l.length = xs.length ∧
      ∀ (j : Nat) (fs : Fields), xs.get? j = some (.obj fs) →
        l.get? j = some (normalizeSubtask s p (i0 + j) fs).1 := by
  induction xs with
  | nil =>
    intro i0 _
    exact ⟨[], [], rfl, rfl, by intro j fs hj; simp at hj⟩
  | cons v rest ih =>
    intro i0 hobj
    obtain ⟨fs0, rfl⟩ := hobj v (by simp)
    obtain ⟨tl, lgs', htl, hlen, hget⟩ := ih (i0 + 1) (fun w hw => hobj w (by simp [hw]))
    refine ⟨(normalizeSubtask s p i0 fs0).1 :: tl,
      (normalizeSubtask s p i0 fs0).2 ++ lgs', ?_, ?_, ?_⟩
    · simp only [normalizeSubtasksList, htl]
    · simp [hlen]
    · intro j fs hj
      cases j with
      | zero =>
        simp only [List.get?_cons_zero, Option.some.injEq] at hj
        injection hj with h
        subst h
        simp only [List.get?_cons_zero, Nat.add_zero]
      | succ n =>
        simp only [List.get?_cons_succ] at hj ⊢
        have := hget n fs hj
        rwa [show i0 + 1 + n = i0 + (n + 1) from by omega] at this

theorem parseSubtasks_spec (text : String) (s p : Int) (c : Nat) (sl : List Char)
    (xs : List JVal) (hsl : arrRegion text = some sl)
    (hp : jparseChars sl = some (.arr xs))
    (hobj : ∀ v ∈ xs, ∃ gs : Fields, v = .obj gs) :
    ∃ l lgs, normalizeSubtasksList s p 0 xs = some (l, lgs) ∧
      parseSubtasksFromText text s c p =
        (l, (if xs.length ≠ c then
              [LogEntry.warn ("Expected " ++ toString c ++ " subtasks, but parsed "
                ++ toString xs.length)]
             else []) ++ lgs) := by
  obtain ⟨l, lgs, hnorm, _, _⟩ := normList_spec s p xs 0 hobj
  exact ⟨l, lgs, hnorm, by simp only [parseSubtasksFromText, hsl, hp, hnorm]⟩

/-! ### Claim theorems -/

/-- C2: for every raw text from which the array-mode extractor parses a JSON
array of subtask objects, and every offset and parent id, the element at
position `i` of the normalized result has `id = startId + i` regardless of
the model-supplied id, `status` forced to `"pending"`, `parentTaskId` equal
to the parent task id; string entries of an array-valued `dependencies`
field are coerced through `parseInt`, and a missing or non-array
`dependencies` field becomes the empty sequence. -/
theorem parseSubtasks_normalization (text : String) (startId parentTaskId : Int)
    (expectedCount : Nat) (sl : List Char) (xs : List JVal)
    (hsl : arrRegion text = some sl) (hp : jparseChars sl = some (.arr xs))
    (hobj : ∀ v ∈ xs, ∃ gs : Fields, v = .obj gs) :
    (parseSubtasksFromText text startId expectedCount parentTaskId).1.length = xs.length ∧
    ∀ (j : Nat) (fs : Fields), xs.get? j = some (.obj fs) →
      ∃ rf, (parseSubtasksFromText text startId expectedCount parentTaskId).1.get? j
          = some rf ∧
        getF rf "id" = some (.num ((startId + (j : Int) : Int) : Rat)) ∧
        getF rf "status" = some (.str "pending") ∧
        getF rf "parentTaskId" = some (.num ((parentTaskId : Int) : Rat)) ∧
        (∀ ds, getF fs "dependencies" = some (.arr ds) →
          getF rf "dependencies" = some (.arr (ds.map coerceDep))) ∧
        ((∀ ds, getF fs "dependencies" ≠ some (.arr ds)) →
          getF rf "dependencies" = some (.arr [])) := by
  obtain ⟨l, lgs, hnorm, hres⟩ :=
    parseSubtasks_spec text startId parentTaskId expectedCount sl xs hsl hp hobj
  obtain ⟨l', lgs', hnorm', hlen, hget⟩ := normList_spec startId parentTaskId xs 0 hobj
  rw [hnorm] at hnorm'
  injection hnorm' with hpair
  injection hpair with hl hlgs
  subst hl
  rw [hres]
  refine ⟨hlen, ?_⟩
  intro j fs hj
  have hg := hget j fs hj
  rw [Nat.zero_add] at hg
  refine ⟨(normalizeSubtask startId parentTaskId j fs).1, hg, ?_, ?_, ?_, ?_, ?_⟩
  · exact normalizeSubtask_id startId parentTaskId j fs
  · exact normalizeSubtask_status startId parentTaskId j fs
  · exact normalizeSubtask_parent startId parentTaskId j fs
  · intro ds hds
    rw [normalizeSubtask_deps startId parentTaskId j fs]
    have : depsOf fs = ds.map coerceDep := by unfold depsOf; rw [hds]
    rw [this]
  · intro hnone
    rw [normalizeSubtask_deps startId parentTaskId j fs]
    have : depsOf fs = [] := by
      unfold depsOf
      rcases hdd : getF fs "dependencies" with _ | v
      · rfl
      · cases v with
        | arr ds => exact absurd hdd (hnone ds)
        | null => rfl
        | bool b => rfl
        | num q => rfl
        | nan => rfl
        | str s => rfl
        | obj gs => rfl
    rw [this]

/-- Witness for C2 at the spec scenario: raw text wrapping
`[{"id":99,"title":"X","description":"Y"}]` in prose, offset 5, count 1,
parent task 3 yields one subtask with id 5, empty dependencies and status
pending. -/
theorem parseSubtasks_normalization_witness :
    (arrRegion sc2text = some sc2sl ∧
     jparseChars sc2sl = some (.arr [.obj sc2fields]) ∧
     ∃ rf, (parseSubtasksFromText sc2text 5 1 3).1.get? 0 = some rf ∧
       getF rf "id" = some (.num 5) ∧
       getF rf "dependencies" = some (.arr []) ∧
       getF rf "status" = some (.str "pending") ∧
       getF rf "parentTaskId" = some (.num 3)) ∧
    (jparseChars depsText.data = some (.arr [.obj depsFields]) ∧
     ∃ rf, (parseSubtasksFromText depsText 1 1 4).1.get? 0 = some rf ∧
       getF rf "dependencies" = some (.arr [.num 1, .num 2])) := by
  constructor
  · refine ⟨rfl, rfl, ?_⟩
    have h := parseSubtasks_normalization sc2text 5 3 1 sc2sl [.obj sc2fields] rfl rfl
      (by intro v hv; simp at hv; exact ⟨sc2fields, hv⟩)
    obtain ⟨rf, hrf, hid, hst, hpar, _, hnodeps⟩ := h.2 0 sc2fields rfl
    refine ⟨rf, hrf, ?_, ?_, hst, ?_⟩
    · rw [hid]; norm_num
    · exact hnodeps (fun ds hds => by cases hds)
    · rw [hpar]; norm_num
  · refine ⟨rfl, ?_⟩
    have h := parseSubtasks_normalization depsText 1 4 1 depsText.data [.obj depsFields]
      rfl rfl (by intro v hv; simp at hv; exact ⟨depsFields, hv⟩)
    obtain ⟨rf, hrf, _, _, _, hdeps, _⟩ := h.2 0 depsFields rfl
    exact ⟨rf, hrf, hdeps [.str "1", .str "2"] rfl⟩

/-- C10: subtask normalization is frame-preserving — for every element of a
successfully parsed array of subtask objects, every field other than `id`,
`dependencies`, `status` and `parentTaskId` (any title, description,
details, or extra key the model supplied) is looked up in the returned
record exactly as in the parsed element. -/
theorem normalization_frame_preservation (text : String) (startId parentTaskId : Int)
    (expectedCount : Nat) (sl : List Char) (xs : List JVal) (k : String)
    (hsl : arrRegion text = some sl) (hp : jparseChars sl = some (.arr xs))
    (hobj : ∀ v ∈ xs, ∃ gs : Fields, v = .obj gs)
    (hk1 : k ≠ "id") (hk2 : k ≠ "dependencies") (hk3 : k ≠ "status")
    (hk4 : k ≠ "parentTaskId") :
    ∀ (j : Nat) (fs : Fields), xs.get? j = some (.obj fs) →
      ∃ rf, (parseSubtasksFromText text startId expectedCount parentTaskId).1.get? j
          = some rf ∧ getF rf k = getF fs k := by
  obtain ⟨l, lgs, hnorm, hres⟩ :=
    parseSubtasks_spec text startId parentTaskId expectedCount sl xs hsl hp hobj
  obtain ⟨l', lgs', hnorm', _, hget⟩ := normList_spec startId parentTaskId xs 0 hobj
  rw [hnorm] at hnorm'
  injection hnorm' with hpair
  injection hpair with hl hlgs
  subst hl
  rw [hres]
  intro j fs hj
  have hg := hget j fs hj
  rw [Nat.zero_add] at hg
  exact ⟨_, hg, normalizeSubtask_frame startId parentTaskId j fs hk1 hk2 hk3 hk4⟩

/-- Witness for C10: a parsed subtask carrying a `title` and an extra
`custom` key keeps both verbatim through normalization. -/
theorem normalization_frame_preservation_witness :
    arrRegion sc10text = some sc10text.data ∧
    jparseChars sc10text.data = some (.arr [.obj sc10fields]) ∧
    ∃ rf, (parseSubtasksFromText sc10text 1 1 9).1.get? 0 = some rf ∧
      getF rf "title" = some (.str "Implement parser logic") ∧
      getF rf "custom" = some (.bool true) := by
  have hobj : ∀ v ∈ [JVal.obj sc10fields], ∃ gs : Fields, v = .obj gs := by
    intro v hv; simp at hv; exact ⟨sc10fields, hv⟩
  have h1 := normalization_frame_preservation sc10text 1 9 1 sc10text.data
    [.obj sc10fields] "title" rfl rfl hobj (by decide) (by decide) (by decide) (by decide)
    0 sc10fields rfl
  have h2 := normalization_frame_preservation sc10text 1 9 1 sc10text.data
    [.obj sc10fields] "custom" rfl rfl hobj (by decide) (by decide) (by decide) (by decide)
    0 sc10fields rfl
  obtain ⟨rf1, hrf1, ht⟩ := h1
  obtain ⟨rf2, hrf2, hc⟩ := h2
  refine ⟨rfl, rfl, rf1, hrf1, ?_, ?_⟩
  · rw [ht]; rfl
  · have heq : rf2 = rf1 := by
      rw [hrf1] at hrf2
      injection hrf2 with h
      exact h.symm
    rw [← heq, hc]; rfl

/-- C1 (amended): `generateSubtasks` propagates generation-backend errors to
its caller unchanged; when generation succeeds it never raises — the
response text goes to `parseSubtasksFromText`, whose extraction failures
(for instance, no array bracket in the text) produce exactly
`expectedCount` synthetic fallback records with id `nextSubtaskId + i`,
title `"Subtask {id}"`, auto-generated description and details, empty
dependencies, status `"pending"` and the parent task id. -/
theorem generateSubtasks_error_propagation_and_fallback :
    (∀ (e : JsErr) (n : Nat) (s p : Int),
      (generateSubtasksM (.error e) n s p).1 = .error e) ∧
    (∀ (text : String) (n : Nat) (s p : Int),
      (generateSubtasksM (.ok text) n s p).1
        = .ok (parseSubtasksFromText text s n p)) ∧
    (∀ (text : String) (s p : Int) (n : Nat), arrRegion text = none →
      (parseSubtasksFromText text s n p).1 = fallbackSubtasks s n p) ∧
    (∀ (s p : Int) (n : Nat), (fallbackSubtasks s n p).length = n ∧
      ∀ j, j < n → (fallbackSubtasks s n p).get? j = some
        [("id", .num ((s + (j : Int) : Int) : Rat)),
         ("title", .str ("Subtask " ++ toString (s + (j : Int)))),
         ("description", .str "Auto-generated fallback subtask"),
         ("dependencies", .arr []),
         ("details", .str ("This is a fallback subtask created because parsing failed. "
            ++ "Please update with real details.")),
         ("status", .str "pending"),
         ("parentTaskId", .num ((p : Int) : Rat))]) := by
  refine ⟨fun _ _ _ _ => rfl, fun _ _ _ _ => rfl, ?_, ?_⟩
  · intro text s p n h
    simp only [parseSubtasksFromText, h]
  · intro s p n
    constructor
    · simp only [fallbackSubtasks, List.length_map, List.length_range]
    · intro j hj
      unfold fallbackSubtasks
      rw [List.get?_map, List.get?_range hj]
      rfl

/-- Witness for C1: backend error propagation at a timeout error, success
passthrough at the spec scenario text, and the fallback shape at a
bracketless text with count 2. -/
theorem generateSubtasks_error_propagation_and_fallback_witness :
    (generateSubtasksM (.error ⟨none, "Request timeout"⟩) 3 1 7).1
        = .error ⟨none, "Request timeout"⟩ ∧
    arrRegion "no json here" = none ∧
    (parseSubtasksFromText "no json here" 1 2 7).1 = fallbackSubtasks 1 2 7 ∧
    (fallbackSubtasks 1 2 7).length = 2 ∧
    (fallbackSubtasks 1 2 7).get? 0 = some
      [("id", .num 1), ("title", .str "Subtask 1"),
       ("description", .str "Auto-generated fallback subtask"),
       ("dependencies", .arr []),
       ("details", .str ("This is a fallback subtask created because parsing failed. "
          ++ "Please update with real details.")),
       ("status", .str "pending"), ("parentTaskId", .num 7)] := by
  refine ⟨generateSubtasks_error_propagation_and_fallback.1 _ 3 1 7, rfl, ?_, ?_, ?_⟩
  · exact generateSubtasks_error_propagation_and_fallback.2.2.1 "no json here" 1 7 2 rfl
  · exact (generateSubtasks_error_propagation_and_fallback.2.2.2 1 7 2).1
  · have := (generateSubtasks_error_propagation_and_fallback.2.2.2 1 7 2).2 0 (by decide)
    simpa using this

/-- C1 counterexample: a generation backend that raises `Timeout` makes
`generateSubtasks` rethrow the error to its caller — no fallback subtasks
are returned, contradicting "never raises an error". -/
theorem generateSubtasks_raises_on_backend_error :
    (generateSubtasksM (.error ⟨none, "Request timeout"⟩) 3 1 7).1
      = .error ⟨none, "Request timeout"⟩ := rfl

/-- C5 counterexample: a response parsing to the empty array is returned as
a valid empty sequence, while genuine extraction failures return
`expectedCount` fallback records — the two are not treated alike. -/
theorem emptyArray_not_failure :
    (parseSubtasksFromText "[]" 1 2 7).1 = [] ∧
    (parseSubtasksFromText "no json here" 1 2 7).1 = fallbackSubtasks 1 2 7 ∧
    (fallbackSubtasks 1 2 7).length = 2 ∧ (0 : Nat) ≠ 2 :=
  ⟨rfl, rfl, rfl, by decide⟩

/-- C5 (amended): a response whose extracted slice parses to the empty
array is a valid result — `parseSubtasksFromText` returns the empty
sequence, logging only the count-mismatch warning when a nonzero count was
expected, rather than raising a structural failure. -/
theorem emptyArray_valid_empty_result (text : String) (s p : Int) (c : Nat)
    (sl : List Char) (hsl : arrRegion text = some sl)
    (hp : jparseChars sl = some (.arr [])) :
    (parseSubtasksFromText text s c p).1 = [] ∧
    (c ≠ 0 → (parseSubtasksFromText text s c p).2
      = [.warn ("Expected " ++ toString c ++ " subtasks, but parsed "
          ++ toString (0 : Nat))]) := by
  obtain ⟨l, lgs, hnorm, hres⟩ :=
    parseSubtasks_spec text s p c sl [] hsl hp (by intro v hv; cases hv)
  have hempty : normalizeSubtasksList s p 0 ([] : List JVal) = some ([], []) := rfl
  rw [hempty] at hnorm
  injection hnorm with hpair
  injection hpair with hl hlgs
  rw [hres, ← hl, ← hlgs]
  refine ⟨rfl, ?_⟩
  intro hc
  simp [Ne.symm hc]

/-! ### Object-mode extraction lemmas and claims -/

theorem jGet_jSet_ne (v : JVal) (k k' : String) (w : JVal) (h : k' ≠ k) :
    jGet (jSet v k w) k' = jGet v k' := by
  cases v
  case obj fs => exact getF_setF_ne fs _ h
  all_goals rfl

theorem extractTasks_spec (text : String) (n : Nat) (prdPath nowIso : String)
    (sl : List Char) (parsed : JVal) (ts : List JVal)
    (hsl : objRegion text = some sl) (hp : jparseChars sl = some parsed)
    (ht : jGet parsed "tasks" = some (.arr ts)) :
    extractTasksData text n prdPath nowIso =
      .ok ((if truthyO (jGet parsed "metadata") then parsed
            else jSet parsed "metadata" (synthMetadata ts.length prdPath nowIso)),
           if ts.length ≠ n then
             [.warn ("Expected " ++ toString n ++ " tasks, but received "
               ++ toString ts.length)]
           else []) := by
  simp only [extractTasksData, hsl, hp, ht]
  rcases hm : truthyO (jGet parsed "metadata") with _ | _
  · simp [hm]
  · simp [hm]

/-- C6 counterexample: a parsed object that carries `"metadata": null` does
not pass it through — the falsy value is replaced by a synthesized metadata
object. -/
theorem metadata_null_replaced :
    objRegion nullMetaText = some nullMetaText.data ∧
    jparseChars nullMetaText.data
      = some (.obj [("tasks", .arr []), ("metadata", .null)]) ∧
    extractTasksData nullMetaText 0 "doc.txt" "2024-05-06T07:08:09.000Z"
      = .ok (.obj [("tasks", .arr []),
          ("metadata", synthMetadata 0 "doc.txt" "2024-05-06T07:08:09.000Z")], []) ∧
    synthMetadata 0 "doc.txt" "2024-05-06T07:08:09.000Z" ≠ .null :=
  ⟨rfl, rfl, rfl, JVal.ne_of_beq_false rfl⟩

/-- C6 (amended): a successfully parsed object-mode response with a truthy
`metadata` value is returned with that metadata untouched; when `metadata`
is absent or falsy (for instance `null`), a metadata object is synthesized
with `totalTasks` equal to the parsed task count, `sourceFile` equal to the
supplied PRD path, and `generatedAt` the calendar-date part of the current
ISO timestamp, containing no `'T'` time separator. -/
theorem metadata_passthrough_or_synthesis (text : String) (n : Nat)
    (prdPath nowIso : String) (sl : List Char) (parsed : JVal) (ts : List JVal)
    (hsl : objRegion text = some sl) (hp : jparseChars sl = some parsed)
    (ht : jGet parsed "tasks" = some (.arr ts)) :
    (truthyO (jGet parsed "metadata") = true →
      extractTasksData text n prdPath nowIso = .ok (parsed,
        if ts.length ≠ n then
          [.warn ("Expected " ++ toString n ++ " tasks, but received "
            ++ toString ts.length)]
        else [])) ∧
    (truthyO (jGet parsed "metadata") = false →
      extractTasksData text n prdPath nowIso
        = .ok (jSet parsed "metadata" (synthMetadata ts.length prdPath nowIso),
          if ts.length ≠ n then
            [.warn ("Expected " ++ toString n ++ " tasks, but received "
              ++ toString ts.length)]
          else [])) ∧
    jGet (synthMetadata ts.length prdPath nowIso) "totalTasks"
      = some (.num ((ts.length : Nat) : Rat)) ∧
    jGet (synthMetadata ts.length prdPath nowIso) "sourceFile" = some (.str prdPath) ∧
    jGet (synthMetadata ts.length prdPath nowIso) "generatedAt"
      = some (.str (datePart nowIso)) ∧
    (∀ c ∈ (datePart nowIso).data, c ≠ 'T') := by
  have hspec := extractTasks_spec text n prdPath nowIso sl parsed ts hsl hp ht
  refine ⟨?_, ?_, rfl, rfl, rfl, ?_⟩
  · intro hm
    rw [hspec, if_pos hm]
  · intro hm
    rw [hspec, if_neg (by rw [hm]; exact Bool.false_ne_true)]
  · intro c hc
    have h := List.mem_takeWhile_imp hc
    simpa using h

/-- Witness for C6 at a response carrying a truthy metadata object: it is
returned unmodified. -/
theorem metadata_passthrough_or_synthesis_witness :
    objRegion withMetaText = some withMetaText.data ∧
    jparseChars withMetaText.data = some withMetaParsed ∧
    jGet withMetaParsed "tasks" = some (.arr [.obj []]) ∧
    truthyO (jGet withMetaParsed "metadata") = true ∧
    extractTasksData withMetaText 1 "doc.txt" iso0 = .ok (withMetaParsed, []) := by
  refine ⟨rfl, rfl, rfl, rfl, ?_⟩
  have h := (metadata_passthrough_or_synthesis withMetaText 1 "doc.txt" iso0
    withMetaText.data withMetaParsed [.obj []] rfl rfl rfl).1 rfl
  exact h

/-- C7: a successfully parsed object-mode response whose task count differs
from the requested count does not fail and is neither truncated nor padded:
the result carries the parsed `tasks` array unchanged, and the log output is
exactly the count-mismatch warning. -/
theorem task_count_mismatch_warns (text : String) (n : Nat) (prdPath nowIso : String)
    (sl : List Char) (parsed : JVal) (ts : List JVal)
    (hsl : objRegion text = some sl) (hp : jparseChars sl = some parsed)
    (ht : jGet parsed "tasks" = some (.arr ts)) (hne : ts.length ≠ n) :
    ∃ v, extractTasksData text n prdPath nowIso
        = .ok (v, [.warn ("Expected " ++ toString n ++ " tasks, but received "
            ++ toString ts.length)]) ∧
      jGet v "tasks" = some (.arr ts) := by
  have hspec := extractTasks_spec text n prdPath nowIso sl parsed ts hsl hp ht
  rcases hm : truthyO (jGet parsed "metadata") with _ | _
  · refine ⟨jSet parsed "metadata" (synthMetadata ts.length prdPath nowIso), ?_, ?_⟩
    · rw [hspec, if_neg (by rw [hm]; exact Bool.false_ne_true), if_pos hne]
    · rw [jGet_jSet_ne parsed "metadata" "tasks" _ (by decide)]
      exact ht
  · refine ⟨parsed, ?_, ht⟩
    rw [hspec, if_pos hm, if_pos hne]

/-- Witness for C7: one parsed task against a requested count of two warns
and keeps the single task. -/
theorem task_count_mismatch_warns_witness :
    objRegion oneTaskText = some oneTaskText.data ∧
    jparseChars oneTaskText.data
      = some (.obj [("tasks", .arr [.obj [("id", .num 1)]])]) ∧
    ∃ v, extractTasksData oneTaskText 2 "doc.txt" iso0
        = .ok (v, [.warn "Expected 2 tasks, but received 1"]) ∧
      jGet v "tasks" = some (.arr [.obj [("id", .num 1)]]) := by
  refine ⟨rfl, rfl, ?_⟩
  exact task_count_mismatch_warns oneTaskText 2 "doc.txt" iso0 oneTaskText.data
    (.obj [("tasks", .arr [.obj [("id", .num 1)]])]) [.obj [("id", .num 1)]]
    rfl rfl rfl (by decide)

/-- C8 counterexample: re-running object-mode extraction on the same raw
text at two different calendar dates yields different structures — the
synthesized `generatedAt` follows the clock, so byte-identity across reruns
fails. -/
theorem extraction_differs_across_dates :
    extractTasksData bareTasksText 0 "f" "2024-01-01T00:00:00.000Z"
      = .ok (.obj [("tasks", .arr []),
          ("metadata", synthMetadata 0 "f" "2024-01-01T00:00:00.000Z")], []) ∧
    extractTasksData bareTasksText 0 "f" "2024-01-02T00:00:00.000Z"
      = .ok (.obj [("tasks", .arr []),
          ("metadata", synthMetadata 0 "f" "2024-01-02T00:00:00.000Z")], []) ∧
    synthMetadata 0 "f" "2024-01-01T00:00:00.000Z"
      ≠ synthMetadata 0 "f" "2024-01-02T00:00:00.000Z" :=
  ⟨rfl, rfl, JVal.ne_of_beq_false rfl⟩

/-- C8 (amended): extraction is deterministic in the raw text and the
calendar date — object-mode extraction depends on the clock only through
the date part of the timestamp, so two runs on the same text and the same
calendar date yield identical normalized structures (array-mode extraction
takes no clock at all). -/
theorem extraction_deterministic_same_date (text : String) (n : Nat)
    (prdPath now now' : String) (h : datePart now = datePart now') :
    extractTasksData text n prdPath now = extractTasksData text n prdPath now' := by
  unfold extractTasksData synthMetadata
  rw [h]

/-- Witness for C8: two timestamps on the same calendar date produce
identical extractions. -/
theorem extraction_deterministic_same_date_witness :
    datePart "2024-01-02T10:00:00.000Z" = datePart "2024-01-02T23:59:59.999Z" ∧
    extractTasksData bareTasksText 0 "f" "2024-01-02T10:00:00.000Z"
      = extractTasksData bareTasksText 0 "f" "2024-01-02T23:59:59.999Z" :=
  ⟨rfl, extraction_deterministic_same_date bareTasksText 0 "f" _ _ rfl⟩

/-- Witness for C5: the raw text `"[]"` with expected count 2 yields the
empty sequence and only the count warning. -/
theorem emptyArray_valid_empty_result_witness :
    arrRegion "[]" = some "[]".data ∧
    jparseChars "[]".data = some (.arr []) ∧
    (parseSubtasksFromText "[]" 1 2 7).1 = [] ∧
    (parseSubtasksFromText "[]" 1 2 7).2 = [.warn "Expected 2 subtasks, but parsed 0"] := by
  have h := emptyArray_valid_empty_result "[]" 1 7 2 "[]".data rfl rfl
  exact ⟨rfl, rfl, h.1, h.2 (by decide)⟩

/-! ### Orchestration claims -/

theorem orch_spin_aux :
    ∀ fuel : Nat,
      (∀ k rc, (orchRun garbageGen 10 "prd.txt" iso0 fuel (.callG k rc)).1
        = POutcome.spin) ∧
      (∀ k, (orchRun garbageGen 10 "prd.txt" iso0 fuel (.handleS k)).1
        = POutcome.spin) ∧
      (∀ k, (orchRun garbageGen 10 "prd.txt" iso0 fuel (.processR k garbageText 0)).1
        = POutcome.spin) ∧
      (∀ k, (orchRun garbageGen 10 "prd.txt" iso0 fuel (.processR k garbageText 1)).1
        = POutcome.spin) := by
  intro fuel
  induction fuel with
  | zero => exact ⟨fun _ _ => rfl, fun _ => rfl, fun _ => rfl, fun _ => rfl⟩
  | succ m ih =>
    obtain ⟨ihc, ihh, ihp0, ihp1⟩ := ih
    have hextract : extractTasksData garbageText 10 "prd.txt" iso0
        = .error ⟨none, "Could not find valid JSON in Gemini\x27s response"⟩ := rfl
    refine ⟨?_, ?_, ?_, ?_⟩
    · intro k rc
      have hh := ihh k
      simp [orchRun, hh]
    · intro k
      have hp := ihp0 (k + 1)
      simp [orchRun, garbageGen, hp]
    · intro k
      have hnext := ihp1 k
      simp [orchRun, hextract, hnext]
    · intro k
      have hnext := ihc k 2
      simp [orchRun, hextract, hnext, markViaPromise]

/-- C3: with a generation backend that always returns non-JSON garbage, the
PRD-breakdown orchestration never terminates with a fatal error (nor any
result): for every bound on the number of chained calls the run exhausts the
bound, because `processGeminiResponse` at its second retry calls `callGemini`
again, whose `handleStreamingRequest` re-enters extraction with the retry
counter reset to 0 — the claimed "exactly 2 extraction-retry attempts, then
a fatal error" never happens. -/
theorem breakdownPRD_garbage_never_raises :
    ∀ fuel : Nat, (callGeminiM garbageGen 10 "prd.txt" iso0 fuel).1 = POutcome.spin := by
  intro fuel
  exact (orch_spin_aux fuel).1 0 0

/-- C4: a structured quota error and a timeout are thrown to the caller
after a single generation call, with no backoff wait — the translated
message re-thrown by `handleStreamingRequest` no longer matches the retry
predicate of `callGemini` ("timed out" does not contain "timeout", and the
wrapped error carries no `response.error.code`) — while a network error is
retried twice with 5s and 10s waits, showing the backoff machinery itself
works exactly as specified for the one classification whose translation
preserves its keyword. -/
theorem callGemini_classified_retry_eval :
    callGeminiM quotaGen 10 "prd.txt" iso0 30
      = (.err ⟨none, "Error communicating with Gemini: You have exceeded your quota. Please check your plan and billing details."⟩ false,
         [.startInd, .genCall, .stopInd], 1) ∧
    callGeminiM timeoutGen 10 "prd.txt" iso0 30
      = (.err ⟨none, "Error communicating with Gemini: The request to Gemini timed out. Please try again."⟩ false,
         [.startInd, .genCall, .stopInd], 1) ∧
    callGeminiM networkGen 10 "prd.txt" iso0 30
      = (.err ⟨none, "There was a network error connecting to Gemini. Please check your internet connection and try again."⟩ false,
         [.startInd, .genCall, .stopInd, .wait 5000,
          .startInd, .genCall, .stopInd, .wait 10000,
          .startInd, .genCall, .stopInd], 3) :=
  ⟨rfl, rfl, rfl⟩

/-- C9: when the research call of `generateSubtasksWithPerplexity` fails,
the function throws while the research loading indicator it started is never
stopped (one `startInd`, no `stopInd`); the plain `generateSubtasks` and the
successful-research paths do balance every indicator and tick timer. -/
theorem research_failure_leaves_indicator_running :
    generateSubtasksWithPerplexityM true (.error ⟨none, "network down"⟩) (.ok "") 3 1 7
      = (.error ⟨none, "network down"⟩, [.startInd, .researchCall]) ∧
    indBalanced [.startInd, .researchCall] = false ∧
    (∀ (gen : Except JsErr String) (n : Nat) (s p : Int),
      indBalanced (generateSubtasksM gen n s p).2 = true) ∧
    (∀ (t : String) (gen : Except JsErr String) (n : Nat) (s p : Int),
      indBalanced (generateSubtasksWithPerplexityM true (.ok t) gen n s p).2 = true) := by
  refine ⟨rfl, rfl, ?_, ?_⟩
  · intro gen n s p
    cases gen <;> rfl
  · intro t gen n s p
    cases gen <;> rfl
